import Mathlib

/-!
# Verification of the notan draw/batching engine and asset manager

Shallow embedding of `src/nae-gfx/src/draw.rs` and
`src/crates/notan_app/src/assets/manager.rs`.

`f32` arithmetic is modelled over `ℚ`; Rust's `f32::fract` (truncation
toward zero) and `f32::floor` are modelled explicitly.  The batchers,
the GPU device and the asset storage are external collaborators of the
two source files; their behavior is abstracted (batchers accumulate
pushed data and record flush events; storage outcomes are oracle
functions), and the parts the spec pins down are modelled from the spec
where noted.
-/

namespace Notan

/-- The paint mode enum from `draw.rs` (`enum PaintMode`). -/
inductive PaintMode where
  | none
  | color
  | image
  | pattern
  | text
deriving DecidableEq, Repr

/-- The frame sub-rectangle of a texture (`img.frame()`), an external
read-only collaborator of `draw.rs`. -/
structure Frame where
  x : ℚ
  y : ℚ
  width : ℚ
  height : ℚ
deriving DecidableEq, Repr

/-- The texture boundary consumed by `draw.rs`: loaded flag, frame
sub-rectangle and base (atlas) dimensions. -/
structure Texture where
  loaded : Bool
  frame : Frame
  baseWidth : ℚ
  baseHeight : ℚ
deriving DecidableEq, Repr

/-- `Texture::width()` is frame-relative (spec §6). -/
def Texture.width (t : Texture) : ℚ := t.frame.width

/-- `Texture::height()` is frame-relative (spec §6). -/
def Texture.height (t : Texture) : ℚ := t.frame.height

/-- Vertex/index data handed to the color batcher by `draw_color`. -/
structure ColorPayload where
  vertices : List ℚ
  indices : List ℕ
deriving DecidableEq, Repr

/-- Vertex/uv/index data handed to the image or pattern batcher by
`draw_image` / `draw_pattern`. -/
structure ImagePayload where
  vertices : List ℚ
  uvs : List ℚ
  indices : List ℕ
deriving DecidableEq, Repr

/-- Rust `f32::trunc`: rounding toward zero. -/
def rustTrunc (q : ℚ) : ℤ := if q < 0 then ⌈q⌉ else ⌊q⌋

/-- Rust `f32::fract`: `self - self.trunc()`. -/
def rustFract (q : ℚ) : ℚ := q - (rustTrunc q : ℚ)

/-- The quad vertex/uv computation of `Draw::image_ext`
(`draw.rs` lines 305-359): sentinel zeros for width/height and
source width/height select the frame's dimension, the source
rectangle is normalized by the base dimensions, and the quad is
triangulated as (0,1,2),(2,1,3) in TL,TR,BL,BR order. -/
def imageExtPayload (img : Texture) (depth x y width height source_x source_y
    source_width source_height : ℚ) : ImagePayload :=
  let frame := img.frame
  let base_width := img.baseWidth
  let base_height := img.baseHeight
  let ww := if width = 0 then frame.width else width
  let hh := if height = 0 then frame.height else height
  let x2 := x + ww
  let y2 := y + hh
  let sx := frame.x + source_x
  let sy := frame.y + source_y
  let sw := if source_width = 0 then frame.width else source_width
  let sh := if source_height = 0 then frame.height else source_height
  let sx1 := sx / base_width
  let sy1 := sy / base_height
  let sx2 := (sx + sw) / base_width
  let sy2 := (sy + sh) / base_height
  { vertices := [x, y, depth, x2, y, depth, x, y2, depth, x2, y2, depth]
    uvs := [sx1, sy1, sx2, sy1, sx1, sy2, sx2, sy2]
    indices := [0, 1, 2, 2, 1, 3] }

/-- `Draw::image_ext` data: `none` when the texture is not loaded
(the early `return` at `draw.rs` line 301). -/
def imageExtData (img : Texture) (depth x y width height source_x source_y
    source_width source_height : ℚ) : Option ImagePayload :=
  if img.loaded then
    some (imageExtPayload img depth x y width height source_x source_y
      source_width source_height)
  else Option.none

/-- `Draw::image_crop` delegates to `image_ext` with dest size equal to
the source size (`draw.rs` lines 266-287). -/
def imageCropData (img : Texture) (depth x y source_x source_y source_width
    source_height : ℚ) : Option ImagePayload :=
  imageExtData img depth x y source_width source_height source_x source_y
    source_width source_height

/-- The nine draws issued by `Draw::image_9slice_ext`
(`draw.rs` lines 368-450), in source order: four corners via
`image_crop`, four edges and the center via `image_ext`.  Draws that
no-op (unloaded texture) are absent from the list. -/
def image9sliceExtData (img : Texture) (depth x y width height left right top
    bottom : ℚ) : List ImagePayload :=
  let center_sw := img.width - (left + right)
  let center_sh := img.height - (top + bottom)
  let center_w := width - (left + right)
  let center_h := height - (top + bottom)
  [imageCropData img depth x y 0 0 left top,
   imageExtData img depth (x + left) y center_w top left 0 center_sw top,
   imageCropData img depth (x + left + center_w) y (left + center_sw) 0 right top,
   imageExtData img depth x (y + top) left center_h 0 top left center_sh,
   imageExtData img depth (x + left) (y + top) center_w center_h left top center_sw center_sh,
   imageExtData img depth (x + left + center_w) (y + top) right center_h (left + center_sw) top right center_sh,
   imageCropData img depth x (y + top + center_h) 0 (top + center_sh) left bottom,
   imageExtData img depth (x + left) (y + top + center_h) center_w bottom left (top + center_sh) center_sw bottom,
   imageCropData img depth (x + left + center_w) (y + top + center_h) (left + center_sw) (top + center_sh) right bottom
  ].filterMap id

/-- The quad vertex/uv computation of `Draw::pattern_ext`
(`draw.rs` lines 482-523): tile counts are destination size divided by
frame size, offsets are wrapped to their fractional part in
frame-normalized space.  `fract_x`/`fract_y` and the scale arguments
are computed/accepted but unused, as in the source. -/
def patternExtPayload (img : Texture) (depth x y width height offset_x offset_y
    scale_x scale_y : ℚ) : ImagePayload :=
  let frame := img.frame
  let x2 := x + width
  let y2 := y + height
  let tex_width := width / frame.width
  let tex_height := height / frame.height
  let fract_x := rustFract tex_width
  let fract_y := rustFract tex_height
  let offset_x := rustFract (offset_x / frame.width)
  let offset_y := rustFract (offset_y / frame.height)
  let sx1 := (⌊tex_width⌋ : ℚ) + offset_x
  let sy1 := (⌊tex_height⌋ : ℚ) + offset_y
  let sx2 := offset_x
  let sy2 := offset_y
  let _ := fract_x
  let _ := fract_y
  let _ := scale_x
  let _ := scale_y
  { vertices := [x, y, depth, x2, y, depth, x, y2, depth, x2, y2, depth]
    uvs := [sx1, sy1, sx2, sy1, sx1, sy2, sx2, sy2]
    indices := [0, 1, 2, 2, 1, 3] }

/-- `Draw::pattern_ext` data: `none` when the texture is not loaded
(the early `return` at `draw.rs` line 478). -/
def patternExtData (img : Texture) (depth x y width height offset_x offset_y
    scale_x scale_y : ℚ) : Option ImagePayload :=
  if img.loaded then
    some (patternExtPayload img depth x y width height offset_x offset_y
      scale_x scale_y)
  else Option.none

/-- Vertex data of `Draw::rect` (`draw.rs` lines 194-212). -/
def rectData (depth x y width height : ℚ) : ColorPayload :=
  { vertices := [x, y, depth, x + width, y, depth, x, y + height, depth,
                 x + width, y + height, depth]
    indices := [0, 1, 2, 2, 1, 3] }

/-- Vertex data of `Draw::triangle` (`draw.rs` lines 169-183). -/
def triangleData (depth x1 y1 x2 y2 x3 y3 : ℚ) : ColorPayload :=
  { vertices := [x1, y1, depth, x2, y2, depth, x3, y3, depth]
    indices := [0, 1, 2] }

/-- Division that reports a zero divisor instead of producing a value,
used to show `Draw::line` never divides by zero. -/
def checkedDiv (a b : ℚ) : Option ℚ :=
  if b = 0 then Option.none else some (a / b)

/-- The perpendicular-offset computation of `Draw::line`
(`draw.rs` lines 111-115): the degenerate horizontal case `y1 == y2`
uses the fixed vertical vector `(0, -1)`; otherwise the slope division
by `y2 - y1` is checked. -/
def lineOffset (x1 y1 x2 y2 : ℚ) : Option (ℚ × ℚ) :=
  if y1 = y2 then some ((0 : ℚ), (-1 : ℚ))
  else
    match checkedDiv (x2 - x1) (y2 - y1) with
    | Option.none => Option.none
    | some q => some ((1 : ℚ), -q)

/-- The normalization of `Draw::line` (`draw.rs` lines 117-122):
scale the offset to the requested width, skipped when the length is
zero.  `sqrtF` stands for `f32::sqrt`, an external numeric primitive
(only its value feeds the `len != 0.0` guard). -/
def lineNormalize (sqrtF : ℚ → ℚ) (width xx yy : ℚ) : Option (ℚ × ℚ) :=
  let len := sqrtF (xx * xx + yy * yy)
  if len ≠ 0 then
    match checkedDiv width len with
    | Option.none => Option.none
    | some mul => some (xx * mul, yy * mul)
  else some (xx, yy)

/-- The two triangles `Draw::line` emits (`draw.rs` lines 124-148). -/
def lineQuad (depth x1 y1 x2 y2 xx yy : ℚ) : ColorPayload :=
  let px1 := x1 + (1/2 : ℚ) * xx
  let py1 := y1 + (1/2 : ℚ) * yy
  let px2 := x2 + (1/2 : ℚ) * xx
  let py2 := y2 + (1/2 : ℚ) * yy
  let px3 := px1 - xx
  let py3 := py1 - yy
  let px4 := px2 - xx
  let py4 := py2 - yy
  { vertices := [px1, py1, depth, px2, py2, depth, px3, py3, depth,
                 px3, py3, depth, px2, py2, depth, px4, py4, depth]
    indices := [0, 1, 2, 3, 4, 5] }

/-- The quad computation of `Draw::line` (`draw.rs` lines 108-149) with
every division checked. -/
def lineDataChecked (sqrtF : ℚ → ℚ) (depth x1 y1 x2 y2 width : ℚ) :
    Option ColorPayload :=
  match lineOffset x1 y1 x2 y2 with
  | Option.none => Option.none
  | some xy =>
      match lineNormalize sqrtF width xy.1 xy.2 with
      | Option.none => Option.none
      | some xy2 => some (lineQuad depth x1 y1 x2 y2 xy2.1 xy2.2)

/-- The `Draw` state relevant to batching: the current paint mode, the
depth, the three batchers' accumulated data, and a ghost log of the
batcher flushes that `fn flush` has issued (each entry is the mode
whose batcher was flushed). -/
structure DrawSt where
  currentMode : PaintMode
  depth : ℚ
  colorData : List ColorPayload
  imageData : List (Texture × ImagePayload)
  patternData : List (Texture × ImagePayload)
  flushLog : List PaintMode

/-- `fn flush` (`draw.rs` lines 527-552): flush the batcher of the
current mode (a no-op for `None`/`Text`, which have no batcher).  A
batcher flush submits and resets its accumulated data; the ghost log
records it. -/
def flush (d : DrawSt) : DrawSt :=
  match d.currentMode with
  | PaintMode.color =>
      { d with colorData := [], flushLog := d.flushLog ++ [PaintMode.color] }
  | PaintMode.image =>
      { d with imageData := [], flushLog := d.flushLog ++ [PaintMode.image] }
  | PaintMode.pattern =>
      { d with patternData := [], flushLog := d.flushLog ++ [PaintMode.pattern] }
  | _ => d

/-- `fn paint_mode` (`draw.rs` lines 554-561): a same-mode request
returns immediately; otherwise the previous batcher is flushed and the
mode switched. -/
def paint_mode (d : DrawSt) (mode : PaintMode) : DrawSt :=
  if d.currentMode = mode then d
  else { flush d with currentMode := mode }

/-- `fn draw_color`: push data to the color batcher. -/
def pushColor (d : DrawSt) (p : ColorPayload) : DrawSt :=
  { d with colorData := d.colorData ++ [p] }

/-- `fn draw_image`: push data to the image batcher. -/
def pushImage (d : DrawSt) (img : Texture) (p : ImagePayload) : DrawSt :=
  { d with imageData := d.imageData ++ [(img, p)] }

/-- `fn draw_pattern`: push data to the pattern batcher. -/
def pushPattern (d : DrawSt) (img : Texture) (p : ImagePayload) : DrawSt :=
  { d with patternData := d.patternData ++ [(img, p)] }

/-- `Draw::rect`: request Color mode, then push the quad. -/
def DrawSt.rect (d : DrawSt) (x y width height : ℚ) : DrawSt :=
  let d := paint_mode d PaintMode.color
  pushColor d (rectData d.depth x y width height)

/-- `Draw::triangle`: request Color mode, then push the triangle. -/
def DrawSt.triangle (d : DrawSt) (x1 y1 x2 y2 x3 y3 : ℚ) : DrawSt :=
  let d := paint_mode d PaintMode.color
  pushColor d (triangleData d.depth x1 y1 x2 y2 x3 y3)

/-- `Draw::image_ext` as a state transition: the `is_loaded` check
comes first (unloaded: complete no-op), then the mode switch, then the
push (`draw.rs` lines 289-360). -/
def DrawSt.image_ext (d : DrawSt) (img : Texture) (x y width height source_x
    source_y source_width source_height : ℚ) : DrawSt :=
  match imageExtData img d.depth x y width height source_x source_y
      source_width source_height with
  | Option.none => d
  | some p =>
      let d := paint_mode d PaintMode.image
      pushImage d img p

/-- `Draw::pattern_ext` as a state transition: the mode switch comes
first, then the `is_loaded` check, then a second (no-op) mode request
and the push (`draw.rs` lines 465-524). -/
def DrawSt.pattern_ext (d : DrawSt) (img : Texture) (x y width height offset_x
    offset_y scale_x scale_y : ℚ) : DrawSt :=
  let d := paint_mode d PaintMode.pattern
  match patternExtData img d.depth x y width height offset_x offset_y
      scale_x scale_y with
  | Option.none => d
  | some p =>
      let d := paint_mode d PaintMode.pattern
      pushPattern d img p

/-- `Draw::end` forces the paint mode back to `None`, flushing whatever
was active (`draw.rs` lines 96-99; the device-level `gfx.end` is
outside the batching state). -/
def DrawSt.endFrame (d : DrawSt) : DrawSt :=
  paint_mode d PaintMode.none

/-- The batching state of a fresh `Draw` (`Draw::new`,
`draw.rs` lines 37-63): mode `None`, depth 0, empty batchers. -/
def initDraw : DrawSt :=
  { currentMode := PaintMode.none, depth := 0, colorData := [],
    imageData := [], patternData := [], flushLog := [] }

/-- One shape/image/pattern draw call on a `Draw`. -/
inductive DrawCmd where
  | rect (x y width height : ℚ)
  | triangle (x1 y1 x2 y2 x3 y3 : ℚ)
  | image_ext (img : Texture) (x y width height source_x source_y
      source_width source_height : ℚ)
  | pattern_ext (img : Texture) (x y width height offset_x offset_y
      scale_x scale_y : ℚ)

/-- The paint mode a draw call requests. -/
def DrawCmd.reqMode : DrawCmd → PaintMode
  | DrawCmd.rect _ _ _ _ => PaintMode.color
  | DrawCmd.triangle _ _ _ _ _ _ => PaintMode.color
  | DrawCmd.image_ext _ _ _ _ _ _ _ _ _ => PaintMode.image
  | DrawCmd.pattern_ext _ _ _ _ _ _ _ _ _ => PaintMode.pattern

/-- A call actually reaches its mode request when its texture is
loaded; `image_ext` returns before `paint_mode` on an unloaded
texture (`pattern_ext` switches mode regardless). -/
def DrawCmd.ok : DrawCmd → Bool
  | DrawCmd.image_ext img _ _ _ _ _ _ _ _ => img.loaded
  | _ => true

/-- Execute one draw call. -/
def runCmd (d : DrawSt) : DrawCmd → DrawSt
  | DrawCmd.rect x y w h => d.rect x y w h
  | DrawCmd.triangle x1 y1 x2 y2 x3 y3 => d.triangle x1 y1 x2 y2 x3 y3
  | DrawCmd.image_ext img x y w h sx sy sw sh =>
      d.image_ext img x y w h sx sy sw sh
  | DrawCmd.pattern_ext img x y w h ox oy sx sy =>
      d.pattern_ext img x y w h ox oy sx sy

/-- Execute a sequence of draw calls. -/
def runCmds (d : DrawSt) (cmds : List DrawCmd) : DrawSt :=
  cmds.foldl runCmd d

/-- The batcher flush `fn flush` performs when the current mode is
`m`: the mode's batcher is flushed, `None`/`Text` flush nothing. -/
def flushEntry : PaintMode → List PaintMode
  | PaintMode.color => [PaintMode.color]
  | PaintMode.image => [PaintMode.image]
  | PaintMode.pattern => [PaintMode.pattern]
  | _ => []

/-- The batcher flushes a sequence of mode requests causes, starting
from current mode `cur`: one flush of the previous mode's batcher at
exactly each request that differs from the current mode. -/
def expectedFlushes (cur : PaintMode) : List PaintMode → List PaintMode
  | [] => []
  | m :: ms =>
      if cur = m then expectedFlushes cur ms
      else flushEntry cur ++ expectedFlushes m ms

/-! ## Transform stack (`Draw::push`/`pop`/`transform`)

The matrix type and `matrix4_mul_matrix4`/`matrix4_identity` are
external math utilities (spec §1 out-of-scope), so the stack is
parametric in the matrix type `M`, the multiplication and the identity
seeded by `Draw::new`.  The Rust `Vec` pushes and pops at its end; the
list's head plays that role here. -/

/-- One `push`/`pop` call on the transform stack. -/
inductive StackOp (M : Type) where
  | push (m : M)
  | pop

/-- `Draw::transform` returns the top of the matrix stack
(`draw.rs` lines 87-89; the source unwraps, relying on the non-empty
invariant). -/
def transform {M : Type} (st : List M) : Option M := st.head?

/-- `Draw::push` (`draw.rs` lines 74-77): multiply the current top by
the new matrix and push the product.  An empty stack (which the source
would panic on, and which never occurs) is left unchanged. -/
def stackPush {M : Type} (mul : M → M → M) (st : List M) (m : M) : List M :=
  match st with
  | [] => []
  | t :: rest => mul t m :: (t :: rest)

/-- `Draw::pop` (`draw.rs` lines 79-85): a no-op when the stack has at
most one element. -/
def stackPop {M : Type} (st : List M) : List M :=
  if st.length ≤ 1 then st else st.tail

/-- Apply one stack operation. -/
def applyStackOp {M : Type} (mul : M → M → M) (st : List M) :
    StackOp M → List M
  | StackOp.push m => stackPush mul st m
  | StackOp.pop => stackPop st

/-- Apply a sequence of stack operations. -/
def runStackOps {M : Type} (mul : M → M → M) (st : List M)
    (ops : List (StackOp M)) : List M :=
  ops.foldl (applyStackOp mul) st

/-- Whether a stack operation is a `push`. -/
def StackOp.isPush {M : Type} : StackOp M → Bool
  | StackOp.push _ => true
  | StackOp.pop => false

/-- Number of `push` operations in a sequence. -/
def pushCount {M : Type} (ops : List (StackOp M)) : ℕ :=
  ops.countP (fun o => o.isPush)

/-- Number of `pop` operations in a sequence. -/
def popCount {M : Type} (ops : List (StackOp M)) : ℕ :=
  ops.countP (fun o => !o.isPush)

/-- Every pushed matrix is popped again: each suffix of the operation
sequence contains at least as many pops as pushes. -/
abbrev balancedSuffixes {M : Type} (ops : List (StackOp M)) : Prop :=
  ∀ n, n ≤ ops.length → pushCount (ops.drop n) ≤ popCount (ops.drop n)

/-! ## Asset manager (`manager.rs`)

`AssetStorage`, the loader callbacks and `Path::extension` are outside
`manager.rs`; their observable outcomes are modelled as data/oracle
fields, the rest from the spec where noted. -/

/-- Raw bytes of a completed background load. -/
abbrev Bytes := List ℕ

/-- A runtime type tag (`std::any::TypeId`), modelled as a number. -/
abbrev TypeId := ℕ

/-- The output type tag of `Vec<u8>`, declared by the built-in byte
loader in `Assets::new`. -/
def vecU8TypeId : TypeId := 0

/-- `LoaderCallback`: the optional declared output `TypeId` and the
execution outcome of the callback (the storage/parser effects of
`loader.exec` are external; only its `Result` is observed). -/
structure LoaderCallback where
  typeId : Option TypeId
  exec : String → Bytes → Except String Unit

/-- A readiness handle for an asynchronously loaded asset.
Modelled from the spec: a done-signal is a flag that flips once the
manager's storage marks the id ready; freshly registered ids start
not-done. -/
structure DoneSignal where
  done : Bool
deriving DecidableEq, Repr

/-- The storage state `manager.rs` interacts with.
Modelled from the spec: `slots` are the pending slots `register`
creates (id paired with the declared output type); `toUpdate` is what
`try_load` hands over (the drained batch of completed raw loads);
`cleanAsset` is the outcome of the per-id cleanup `clean_asset`. -/
structure AssetStorage where
  slots : List (String × TypeId)
  toUpdate : Option (List (String × Bytes))
  cleanAsset : String → Except String Unit

/-- Modelled from the spec: `AssetStorage::register` creates a pending
slot keyed by the output type and returns a fresh done-signal. -/
def AssetStorage.register (s : AssetStorage) (id : String) (tid : TypeId) :
    AssetStorage × DoneSignal :=
  ({ s with slots := s.slots ++ [(id, tid)] }, { done := false })

/-- The `Assets` manager: storage, the extension-keyed loader registry
(`HashMap<String, LoaderCallback>`, embedded as an exact-key
association list) and the byte-loader fallback. -/
structure Assets where
  storage : AssetStorage
  loaders : List (String × LoaderCallback)
  byteLoader : LoaderCallback

/-- The built-in raw-byte loader built by `Assets::new`
(`manager.rs` lines 20-24): declares the `Vec<u8>` output type; its
callback parses the bytes into storage (outcome: success). -/
def byteLoaderDefault : LoaderCallback :=
  { typeId := some vecU8TypeId, exec := fun _ _ => Except.ok () }

/-- `Assets::new` (`manager.rs` lines 19-31): empty registry, default
storage, byte-loader fallback. -/
def Assets.new (storage : AssetStorage) : Assets :=
  { storage := storage, loaders := [], byteLoader := byteLoaderDefault }

/-- The maximal suffix of `l` containing no occurrence of `sep`
(everything after the last `sep`; all of `l` when absent). -/
def afterLast (sep : Char) (l : List Char) : List Char :=
  (l.reverse.takeWhile (fun c => c ≠ sep)).reverse

/-- The characters after the last `.`, or `none` when there is no
`.`. -/
def afterLastDot? : List Char → Option (List Char)
  | [] => Option.none
  | c :: cs =>
      match afterLastDot? cs with
      | some r => some r
      | Option.none => if c = '.' then some cs else Option.none

/-- Models `std::path::Path::extension` on the asset id, as both
`Assets::load` and `Assets::tick` invoke it: the portion of the final
path component after its last `.`, where a single leading `.` does not
count as a separator (so `".gitignore"` has no extension and letter
case is preserved). -/
def pathExtension (id : String) : Option String :=
  let fn := afterLast '/' id.toList
  let core := match fn with
    | '.' :: rest => rest
    | l => l
  match afterLastDot? core with
  | some ext => some (String.mk ext)
  | Option.none => Option.none

/-- The loader resolution both `Assets::load` (`manager.rs` lines
69-83) and `Assets::tick` (lines 36-50) perform: look the extension
up in the registry (an id without extension uses the key `""`), fall
back to the byte loader when no loader is registered for it. -/
def resolveLoader (a : Assets) (id : String) : LoaderCallback :=
  let ext := (pathExtension id).getD ""
  match a.loaders.find? (fun p => p.1 == ext) with
  | some p => p.2
  | Option.none => a.byteLoader

/-- `Assets::load` (`manager.rs` lines 68-89): resolve the loader,
then either register a pending slot under the loader's declared output
type and return the done-signal, or fail when the loader declares no
output type. -/
def Assets.load (a : Assets) (id : String) :
    Except String (Assets × DoneSignal) :=
  let loader := resolveLoader a id
  match loader.typeId with
  | some tid =>
      let rs := a.storage.register id tid
      Except.ok ({ a with storage := rs.1 }, rs.2)
  | Option.none => Except.error "Loader without output type id"

/-- The observable outcome of one `Assets::tick`. -/
structure TickOutcome where
  execedIds : List String
  endCleanupRan : Bool
  result : Except String Unit

/-- The drain loop of `Assets::tick` (`manager.rs` lines 35-54) over
the completed loads in processing order: resolve the loader for each
id, run it, run the per-id cleanup, and stop at the first error (`?`).
Returns the ids whose loader ran, and the loop's result. -/
def drainLoop (a : Assets) : List (String × Bytes) →
    List String × Except String Unit
  | [] => ([], Except.ok ())
  | (id, data) :: rest =>
      match (resolveLoader a id).exec id data with
      | Except.error e => ([id], Except.error e)
      | Except.ok _ =>
          match a.storage.cleanAsset id with
          | Except.error e => ([id], Except.error e)
          | Except.ok _ =>
              let r := drainLoop a rest
              (id :: r.1, r.2)

/-- `Assets::tick` (`manager.rs` lines 33-60): when `try_load` yields
a batch, drain it back-to-front (`Vec::pop` takes the last element),
propagating the first error out of `tick`; `clean_ready_assets` runs
only when the whole drain succeeds. -/
def Assets.tick (a : Assets) : TickOutcome :=
  match a.storage.toUpdate with
  | Option.none => { execedIds := [], endCleanupRan := false,
                     result := Except.ok () }
  | some to_update =>
      match drainLoop a to_update.reverse with
      | (ids, Except.error e) =>
          { execedIds := ids, endCleanupRan := false,
            result := Except.error e }
      | (ids, Except.ok _) =>
          { execedIds := ids, endCleanupRan := true,
            result := Except.ok () }

/-! ## Claim C3: zero sentinels in `image_ext` -/

/-- **C3.** For every loaded texture, `image_ext` with `width = 0` and
`height = 0` produces a destination quad whose width and height are the
frame's width and height; and `source_width = 0`, `source_height = 0`
make the source rectangle use the frame's dimensions (the call is
indistinguishable from one passing the frame's dimensions
explicitly). -/
theorem image_ext_zero_sentinels (img : Texture)
    (depth x y source_x source_y : ℚ) (h : img.loaded = true) :
    (∃ p, imageExtData img depth x y 0 0 source_x source_y 0 0 = some p ∧
      p.vertices = [x, y, depth, x + img.frame.width, y, depth,
                    x, y + img.frame.height, depth,
                    x + img.frame.width, y + img.frame.height, depth]) ∧
    (∀ width height,
      imageExtData img depth x y width height source_x source_y 0 0 =
        imageExtData img depth x y width height source_x source_y
          img.frame.width img.frame.height) := by
  constructor
  · refine ⟨imageExtPayload img depth x y 0 0 source_x source_y 0 0,
      by simp [imageExtData, h], ?_⟩
    simp [imageExtPayload]
  · intro width height
    simp only [imageExtData, h, if_true]
    simp only [imageExtPayload]
    by_cases hw : img.frame.width = 0 <;> by_cases hh : img.frame.height = 0 <;>
      simp [hw, hh]

/-- Witness for C3 at a concrete loaded texture. -/
theorem image_ext_zero_sentinels_witness :
    ({ loaded := true, frame := { x := 2, y := 3, width := 8, height := 4 },
       baseWidth := 16, baseHeight := 16 } : Texture).loaded = true ∧
    (∃ p, imageExtData
        { loaded := true, frame := { x := 2, y := 3, width := 8, height := 4 },
          baseWidth := 16, baseHeight := 16 } 0 10 20 0 0 1 1 0 0 = some p ∧
      p.vertices = [10, 20, 0, 10 + 8, 20, 0, 10, 20 + 4, 0,
                    10 + 8, 20 + 4, 0]) := by
  refine ⟨rfl, ?_⟩
  have h := (image_ext_zero_sentinels
    { loaded := true, frame := { x := 2, y := 3, width := 8, height := 4 },
      baseWidth := 16, baseHeight := 16 } 0 10 20 1 1 rfl).1
  simpa using h

/-! ## Claim C4: 9-slice with zero margins -/

/-- A loaded 8×8 texture occupying its whole 8×8 base. -/
def tex8 : Texture :=
  { loaded := true, frame := { x := 0, y := 0, width := 8, height := 8 },
    baseWidth := 8, baseHeight := 8 }

/-- On a loaded texture, all nine draws of `image_9slice_ext` happen. -/
lemma image9sliceExtData_loaded_length (img : Texture)
    (depth x y width height left right top bottom : ℚ)
    (h : img.loaded = true) :
    (image9sliceExtData img depth x y width height left right top
      bottom).length = 9 := by
  simp [image9sliceExtData, imageCropData, imageExtData, h]

/-- **C4 counterexample.** With `left=right=top=bottom=0`,
`image_9slice_ext` does *not* emit the geometry of a single direct
`image_ext` call over the full rectangle: on a loaded 8×8 texture drawn
to a 16×16 rectangle it emits nine draws, not one (the zero margins
trigger the zero-as-frame-dimension sentinel of `image_ext`, so the
nominally empty border draws are not dropped). -/
theorem nine_slice_zero_margins_cex :
    image9sliceExtData tex8 0 0 0 16 16 0 0 0 0 ≠
      (imageExtData tex8 0 0 0 16 16 0 0 0 0).toList := by
  intro hcontra
  have h9 := image9sliceExtData_loaded_length tex8 0 0 0 16 16 0 0 0 0 rfl
  rw [hcontra] at h9
  simp [imageExtData, tex8] at h9

/-- **C4 amended.** For every loaded texture, `image_9slice_ext` with
`left=right=top=bottom=0` emits nine draws rather than the geometry of
a single `image_ext`; its center draw (the fifth) is exactly the
single direct `image_ext` call stretching the full frame over the full
destination rectangle, and its first corner draw is not degenerate:
the zero margins trigger the zero-as-frame-dimension sentinel, so that
draw covers a full frame-sized quad at the destination origin. -/
theorem nine_slice_zero_margins_amended (img : Texture)
    (depth x y width height : ℚ) (h : img.loaded = true) :
    (image9sliceExtData img depth x y width height 0 0 0 0).length = 9 ∧
    (image9sliceExtData img depth x y width height 0 0 0 0)[4]? =
      imageExtData img depth x y width height 0 0 0 0 ∧
    (∃ p, (image9sliceExtData img depth x y width height 0 0 0 0)[0]? = some p ∧
      p.vertices = [x, y, depth, x + img.frame.width, y, depth,
                    x, y + img.frame.height, depth,
                    x + img.frame.width, y + img.frame.height, depth]) := by
  refine ⟨image9sliceExtData_loaded_length img depth x y width height 0 0 0 0 h,
    ?_, ?_⟩
  · simp [image9sliceExtData, imageCropData, imageExtData, h, Texture.width,
      Texture.height, imageExtPayload]
  · refine ⟨imageExtPayload img depth x y 0 0 0 0 0 0, ?_, ?_⟩
    · simp [image9sliceExtData, imageCropData, imageExtData, h]
    · simp [imageExtPayload]

/-- Witness for the amended C4 at a concrete loaded texture. -/
theorem nine_slice_zero_margins_amended_witness :
    tex8.loaded = true ∧
    (image9sliceExtData tex8 0 0 0 16 16 0 0 0 0).length = 9 ∧
    (image9sliceExtData tex8 0 0 0 16 16 0 0 0 0)[4]? =
      imageExtData tex8 0 0 0 16 16 0 0 0 0 :=
  ⟨rfl, (nine_slice_zero_margins_amended tex8 0 0 0 16 16 rfl).1,
    (nine_slice_zero_margins_amended tex8 0 0 0 16 16 rfl).2.1⟩

/-! ## Claim C5: pattern offsets are periodic -/

/-- **C5.** For every loaded texture, `pattern_ext` with
`offset_x = frame.width` emits exactly the same data as the same call
with `offset_x = 0`: offsets are reduced to their fractional part in
frame-normalized space. -/
theorem pattern_ext_offset_periodic (img : Texture)
    (depth x y width height offset_y scale_x scale_y : ℚ)
    (h : img.loaded = true) :
    patternExtData img depth x y width height img.frame.width offset_y
        scale_x scale_y =
      patternExtData img depth x y width height 0 offset_y scale_x scale_y := by
  simp only [patternExtData, h, if_true]
  simp only [patternExtPayload]
  have key : rustFract (img.frame.width / img.frame.width) =
      rustFract (0 / img.frame.width) := by
    by_cases hw : img.frame.width = 0
    · rw [hw]
    · rw [div_self hw, zero_div]
      norm_num [rustFract, rustTrunc]
  rw [key]

/-- Witness for C5 at a concrete loaded texture. -/
theorem pattern_ext_offset_periodic_witness :
    ({ loaded := true, frame := { x := 0, y := 0, width := 8, height := 8 },
       baseWidth := 8, baseHeight := 8 } : Texture).loaded = true ∧
    patternExtData
        { loaded := true, frame := { x := 0, y := 0, width := 8, height := 8 },
          baseWidth := 8, baseHeight := 8 } 0 1 2 20 12 8 5 1 1 =
      patternExtData
        { loaded := true, frame := { x := 0, y := 0, width := 8, height := 8 },
          baseWidth := 8, baseHeight := 8 } 0 1 2 20 12 0 5 1 1 :=
  ⟨rfl, pattern_ext_offset_periodic
    { loaded := true, frame := { x := 0, y := 0, width := 8, height := 8 },
      baseWidth := 8, baseHeight := 8 } 0 1 2 20 12 5 1 1 rfl⟩

/-! ## Claim C9: `line` never divides by zero -/

/-- **C9.** For every input to `line`, the perpendicular-offset
computation performs no division by zero (the `y1 == y2` branch uses a
fixed vertical vector, the other branch divides by the nonzero
`y2 - y1`, and the normalization division is guarded by
`len != 0.0`), and the call always emits exactly two triangles: six
vertices (18 position floats) with indices `[0,1,2,3,4,5]`. -/
theorem line_no_division_by_zero (sqrtF : ℚ → ℚ)
    (depth x1 y1 x2 y2 width : ℚ) :
    ∃ p, lineDataChecked sqrtF depth x1 y1 x2 y2 width = some p ∧
      p.vertices.length = 18 ∧ p.indices = [0, 1, 2, 3, 4, 5] := by
  have hoff : ∃ xy, lineOffset x1 y1 x2 y2 = some xy := by
    unfold lineOffset
    by_cases hy : y1 = y2
    · exact ⟨_, if_pos hy⟩
    · rw [if_neg hy]
      have hsub : y2 - y1 ≠ 0 := sub_ne_zero_of_ne (Ne.symm hy)
      simp only [checkedDiv, if_neg hsub]
      exact ⟨_, rfl⟩
  obtain ⟨xy, h1⟩ := hoff
  have hnorm : ∃ xy2, lineNormalize sqrtF width xy.1 xy.2 = some xy2 := by
    simp only [lineNormalize, checkedDiv]
    by_cases hl : sqrtF (xy.1 * xy.1 + xy.2 * xy.2) = 0
    · rw [if_neg (by simpa using hl)]
      exact ⟨_, rfl⟩
    · rw [if_pos hl, if_neg hl]
      exact ⟨_, rfl⟩
  obtain ⟨xy2, h2⟩ := hnorm
  refine ⟨lineQuad depth x1 y1 x2 y2 xy2.1 xy2.2, ?_, rfl, rfl⟩
  simp [lineDataChecked, h1, h2]

/-! ## Claim C6: unloaded textures -/

/-- **C6.** Calling `image_ext` with an unloaded texture is a complete
silent no-op (the state — including the paint mode and all batcher
data — is unchanged), whereas `pattern_ext` with an unloaded texture
still switches the paint mode to Pattern (flushing any previously
active batcher, as `paint_mode` runs before the `is_loaded` check) and
then pushes no data: the pattern batcher's accumulated data is exactly
what it was before the call. -/
theorem unloaded_texture_behavior (d : DrawSt) (img : Texture)
    (x y w h sx sy sw sh ox oy scx scy : ℚ) (hu : img.loaded = false) :
    d.image_ext img x y w h sx sy sw sh = d ∧
    d.pattern_ext img x y w h ox oy scx scy = paint_mode d PaintMode.pattern ∧
    (paint_mode d PaintMode.pattern).patternData = d.patternData := by
  refine ⟨?_, ?_, ?_⟩
  · simp [DrawSt.image_ext, imageExtData, hu]
  · simp [DrawSt.pattern_ext, patternExtData, hu]
  · unfold paint_mode
    by_cases hm : d.currentMode = PaintMode.pattern
    · rw [if_pos hm]
    · rw [if_neg hm]
      show (flush d).patternData = d.patternData
      unfold flush
      cases hcur : d.currentMode <;> simp_all

/-- Witness for C6: an unloaded texture against a state with a
non-empty pattern batcher and active Color mode. -/
theorem unloaded_texture_behavior_witness :
    ({ loaded := false, frame := { x := 0, y := 0, width := 8, height := 8 },
       baseWidth := 8, baseHeight := 8 } : Texture).loaded = false ∧
    DrawSt.image_ext
        { currentMode := PaintMode.color, depth := 0,
          colorData := [rectData 0 0 0 1 1], imageData := [],
          patternData := [(tex8, imageExtPayload tex8 0 0 0 0 0 0 0 0 0)],
          flushLog := [] }
        { loaded := false, frame := { x := 0, y := 0, width := 8, height := 8 },
          baseWidth := 8, baseHeight := 8 } 1 2 3 4 5 6 7 8 =
      { currentMode := PaintMode.color, depth := 0,
        colorData := [rectData 0 0 0 1 1], imageData := [],
        patternData := [(tex8, imageExtPayload tex8 0 0 0 0 0 0 0 0 0)],
        flushLog := [] } ∧
    DrawSt.pattern_ext
        { currentMode := PaintMode.color, depth := 0,
          colorData := [rectData 0 0 0 1 1], imageData := [],
          patternData := [(tex8, imageExtPayload tex8 0 0 0 0 0 0 0 0 0)],
          flushLog := [] }
        { loaded := false, frame := { x := 0, y := 0, width := 8, height := 8 },
          baseWidth := 8, baseHeight := 8 } 1 2 3 4 5 6 7 8 =
      paint_mode
        { currentMode := PaintMode.color, depth := 0,
          colorData := [rectData 0 0 0 1 1], imageData := [],
          patternData := [(tex8, imageExtPayload tex8 0 0 0 0 0 0 0 0 0)],
          flushLog := [] } PaintMode.pattern :=
  ⟨rfl,
   (unloaded_texture_behavior _ _ 1 2 3 4 5 6 7 8 5 6 7 8 rfl).1,
   (unloaded_texture_behavior _ _ 1 2 3 4 1 2 3 4 5 6 7 8 rfl).2.1⟩

/-! ## Claim C1: flushes happen exactly at mode changes -/

lemma flush_flushLog (d : DrawSt) :
    (flush d).flushLog = d.flushLog ++ flushEntry d.currentMode := by
  cases hd : d.currentMode <;> simp [flush, flushEntry, hd]

lemma flush_currentMode (d : DrawSt) :
    (flush d).currentMode = d.currentMode := by
  cases hd : d.currentMode <;> simp [flush, hd]

lemma paint_mode_flushLog (d : DrawSt) (m : PaintMode) :
    (paint_mode d m).flushLog =
      d.flushLog ++ (if d.currentMode = m then [] else flushEntry d.currentMode) := by
  unfold paint_mode
  by_cases hm : d.currentMode = m
  · rw [if_pos hm, if_pos hm]
    simp
  · rw [if_neg hm, if_neg hm]
    show (flush d).flushLog = _
    exact flush_flushLog d

lemma paint_mode_currentMode (d : DrawSt) (m : PaintMode) :
    (paint_mode d m).currentMode = m := by
  unfold paint_mode
  by_cases hm : d.currentMode = m
  · rw [if_pos hm]
    exact hm
  · rw [if_neg hm]

/-- One draw call sets the current mode to the mode it requests. -/
lemma runCmd_currentMode (d : DrawSt) (c : DrawCmd) (h : c.ok = true) :
    (runCmd d c).currentMode = c.reqMode := by
  cases c with
  | rect x y w hh =>
      simp [runCmd, DrawSt.rect, pushColor, DrawCmd.reqMode, paint_mode_currentMode]
  | triangle x1 y1 x2 y2 x3 y3 =>
      simp [runCmd, DrawSt.triangle, pushColor, DrawCmd.reqMode, paint_mode_currentMode]
  | image_ext img x y w hh sx sy sw sh =>
      have hl : img.loaded = true := h
      simp [runCmd, DrawSt.image_ext, imageExtData, hl, pushImage,
        DrawCmd.reqMode, paint_mode_currentMode]
  | pattern_ext img x y w hh ox oy sx sy =>
      by_cases hl : img.loaded <;>
        simp [runCmd, DrawSt.pattern_ext, patternExtData, hl, pushPattern,
          DrawCmd.reqMode, paint_mode_currentMode]

/-- One draw call flushes the previous mode's batcher iff the requested
mode differs from the current one. -/
lemma runCmd_flushLog (d : DrawSt) (c : DrawCmd) (h : c.ok = true) :
    (runCmd d c).flushLog =
      d.flushLog ++ (if d.currentMode = c.reqMode then [] else flushEntry d.currentMode) := by
  cases c with
  | rect x y w hh =>
      simp [runCmd, DrawSt.rect, pushColor, DrawCmd.reqMode, paint_mode_flushLog]
  | triangle x1 y1 x2 y2 x3 y3 =>
      simp [runCmd, DrawSt.triangle, pushColor, DrawCmd.reqMode, paint_mode_flushLog]
  | image_ext img x y w hh sx sy sw sh =>
      have hl : img.loaded = true := h
      simp [runCmd, DrawSt.image_ext, imageExtData, hl, pushImage,
        DrawCmd.reqMode, paint_mode_flushLog]
  | pattern_ext img x y w hh ox oy sx sy =>
      by_cases hl : img.loaded <;>
        simp [runCmd, DrawSt.pattern_ext, patternExtData, hl, pushPattern,
          DrawCmd.reqMode, paint_mode_flushLog, paint_mode_currentMode]

/-- Running a command sequence: the flush log grows by exactly the
expected flushes, and the final mode is the last requested one. -/
lemma runCmds_log_mode (cmds : List DrawCmd) :
    ∀ (d : DrawSt), (∀ c ∈ cmds, c.ok = true) →
      (runCmds d cmds).flushLog =
        d.flushLog ++ expectedFlushes d.currentMode (cmds.map DrawCmd.reqMode) ∧
      (runCmds d cmds).currentMode =
        (cmds.map DrawCmd.reqMode).getLastD d.currentMode := by
  induction cmds with
  | nil => intro d _; simp [runCmds, expectedFlushes]
  | cons c rest ih =>
      intro d h
      have hc : c.ok = true := h c (by simp)
      have hrest : ∀ c' ∈ rest, c'.ok = true := fun c' hc' => h c' (by simp [hc'])
      have hmode := runCmd_currentMode d c hc
      have hlog := runCmd_flushLog d c hc
      have hstep : runCmds d (c :: rest) = runCmds (runCmd d c) rest := rfl
      obtain ⟨ih1, ih2⟩ := ih (runCmd d c) hrest
      constructor
      · rw [hstep, ih1, hlog, hmode]
        simp only [List.map_cons, expectedFlushes]
        by_cases he : d.currentMode = c.reqMode
        · rw [if_pos he, if_pos he, he]
          simp
        · rw [if_neg he, if_neg he]
          simp
      · rw [hstep, ih2, hmode, List.map_cons, List.getLastD_cons]

/-- **C1.** For every sequence of shape/image/pattern draw calls
(image calls on loaded textures, since an unloaded `image_ext` returns
before requesting a mode), `fn flush` runs exactly at the calls whose
requested paint mode differs from the current mode — flushing the
*previous* mode's batcher (`flushEntry`, empty for the initial `None`
which has no batcher) — and once more at `end()` for the final active
mode; two consecutive calls requesting the same mode never flush
between them. -/
theorem flush_exactly_at_mode_changes (cmds : List DrawCmd)
    (hok : ∀ c ∈ cmds, c.ok = true) :
    ((runCmds initDraw cmds).endFrame.flushLog =
      expectedFlushes PaintMode.none (cmds.map DrawCmd.reqMode) ++
        flushEntry ((cmds.map DrawCmd.reqMode).getLastD PaintMode.none)) ∧
    (∀ pre c₁ c₂ post, cmds = pre ++ c₁ :: c₂ :: post →
      c₁.reqMode = c₂.reqMode →
      (runCmds initDraw (pre ++ [c₁, c₂])).flushLog =
        (runCmds initDraw (pre ++ [c₁])).flushLog) := by
  obtain ⟨hlog, hmode⟩ := runCmds_log_mode cmds initDraw hok
  have hinit : initDraw.currentMode = PaintMode.none := rfl
  have hinitlog : initDraw.flushLog = [] := rfl
  rw [hinit, hinitlog] at hlog
  rw [hinit] at hmode
  constructor
  · unfold DrawSt.endFrame
    rw [paint_mode_flushLog, hlog, hmode]
    by_cases hf : (cmds.map DrawCmd.reqMode).getLastD PaintMode.none = PaintMode.none
    · rw [if_pos hf, hf]
      simp [flushEntry]
    · rw [if_neg hf]
      simp
  · intro pre c₁ c₂ post hcmds hreq
    have hokpre : ∀ c ∈ pre ++ [c₁], c.ok = true := by
      intro c' hc'
      apply hok
      subst hcmds
      simp only [List.mem_append, List.mem_cons, List.mem_singleton] at hc' ⊢
      tauto
    have hokc2 : c₂.ok = true := by
      apply hok
      subst hcmds
      simp
    have hsplit : runCmds initDraw (pre ++ [c₁, c₂]) =
        runCmd (runCmds initDraw (pre ++ [c₁])) c₂ := by
      show List.foldl runCmd initDraw (pre ++ [c₁, c₂]) = _
      rw [show pre ++ [c₁, c₂] = (pre ++ [c₁]) ++ [c₂] by simp]
      rw [List.foldl_append]
      rfl
    have hmode1 : (runCmds initDraw (pre ++ [c₁])).currentMode = c₁.reqMode := by
      rw [(runCmds_log_mode (pre ++ [c₁]) initDraw hokpre).2]
      simp
    rw [hsplit, runCmd_flushLog _ _ hokc2, hmode1, hreq]
    simp

/-- A concrete call sequence: two Color calls, an image call on a
loaded texture, a pattern call. -/
def wcmds : List DrawCmd :=
  [DrawCmd.rect 0 0 4 4, DrawCmd.rect 1 1 2 2,
   DrawCmd.image_ext tex8 0 0 8 8 0 0 8 8,
   DrawCmd.pattern_ext tex8 0 0 8 8 0 0 1 1]

/-- Witness for C1 on a concrete call sequence (the two consecutive
Color calls batch together without a flush). -/
theorem flush_exactly_at_mode_changes_witness :
    (∀ c ∈ wcmds, c.ok = true) ∧
    (runCmds initDraw wcmds).endFrame.flushLog =
      expectedFlushes PaintMode.none (wcmds.map DrawCmd.reqMode) ++
        flushEntry ((wcmds.map DrawCmd.reqMode).getLastD PaintMode.none) ∧
    (runCmds initDraw ([] ++ [DrawCmd.rect 0 0 4 4, DrawCmd.rect 1 1 2 2])).flushLog =
      (runCmds initDraw ([] ++ [DrawCmd.rect 0 0 4 4])).flushLog :=
  ⟨by decide, (flush_exactly_at_mode_changes wcmds (by decide)).1,
   (flush_exactly_at_mode_changes wcmds (by decide)).2 []
     (DrawCmd.rect 0 0 4 4) (DrawCmd.rect 1 1 2 2)
     [DrawCmd.image_ext tex8 0 0 8 8 0 0 8 8,
      DrawCmd.pattern_ext tex8 0 0 8 8 0 0 1 1] rfl rfl⟩

/-! ## Claim C2: the transform stack never empties -/

@[simp] lemma pushCount_cons_push {M : Type} (m : M) (ops : List (StackOp M)) :
    pushCount (StackOp.push m :: ops) = pushCount ops + 1 := by
  simp [pushCount, List.countP_cons, StackOp.isPush]

@[simp] lemma pushCount_cons_pop {M : Type} (ops : List (StackOp M)) :
    pushCount (StackOp.pop :: ops) = pushCount ops := by
  simp [pushCount, List.countP_cons, StackOp.isPush]

@[simp] lemma popCount_cons_push {M : Type} (m : M) (ops : List (StackOp M)) :
    popCount (StackOp.push m :: ops) = popCount ops := by
  simp [popCount, List.countP_cons, StackOp.isPush]

@[simp] lemma popCount_cons_pop {M : Type} (ops : List (StackOp M)) :
    popCount (StackOp.pop :: ops) = popCount ops + 1 := by
  simp [popCount, List.countP_cons, StackOp.isPush]

lemma balancedSuffixes_tail {M : Type} (op : StackOp M)
    (ops : List (StackOp M)) (h : balancedSuffixes (op :: ops)) :
    balancedSuffixes ops := by
  intro n hn
  have := h (n + 1) (by simpa using Nat.succ_le_succ hn)
  simpa [List.drop_succ_cons] using this

lemma runStackOps_ne_nil {M : Type} (mul : M → M → M) :
    ∀ (ops : List (StackOp M)) (st : List M), st ≠ [] →
      runStackOps mul st ops ≠ [] := by
  intro ops
  induction ops with
  | nil => intro st h; simpa [runStackOps] using h
  | cons op rest ih =>
      intro st h
      have hstep : applyStackOp mul st op ≠ [] := by
        cases op with
        | push m =>
            cases st with
            | nil => exact absurd rfl h
            | cons t r => simp [applyStackOp, stackPush]
        | pop =>
            unfold applyStackOp stackPop
            by_cases hle : st.length ≤ 1
            · rw [if_pos hle]; exact h
            · rw [if_neg hle]
              cases st with
              | nil => exact absurd rfl h
              | cons a r =>
                  simp only [List.tail_cons]
                  intro hr
                  rw [hr] at hle
                  simp at hle
      exact ih _ hstep

lemma getLast?_cons_of_ne_nil {M : Type} (a : M) (l : List M) (h : l ≠ []) :
    (a :: l).getLast? = l.getLast? := by
  cases l with
  | nil => exact absurd rfl h
  | cons b t => exact List.getLast?_cons_cons

/-- The bottom of the stack is preserved by every operation. -/
lemma runStackOps_getLast? {M : Type} (mul : M → M → M) :
    ∀ (ops : List (StackOp M)) (st : List M), st ≠ [] →
      (runStackOps mul st ops).getLast? = st.getLast? := by
  intro ops
  induction ops with
  | nil => intro st _; rfl
  | cons op rest ih =>
      intro st h
      have hstep_ne : applyStackOp mul st op ≠ [] := by
        have := runStackOps_ne_nil mul [op] st h
        simpa [runStackOps] using this
      have hstep_last : (applyStackOp mul st op).getLast? = st.getLast? := by
        cases op with
        | push m =>
            cases st with
            | nil => exact absurd rfl h
            | cons t r => exact getLast?_cons_of_ne_nil _ _ (by simp)
        | pop =>
            unfold applyStackOp stackPop
            by_cases hle : st.length ≤ 1
            · rw [if_pos hle]
            · rw [if_neg hle]
              cases st with
              | nil => exact absurd rfl h
              | cons a r =>
                  cases r with
                  | nil => simp at hle
                  | cons b t =>
                      simp only [List.tail_cons]
                      exact List.getLast?_cons_cons.symm
      calc (runStackOps mul st (op :: rest)).getLast?
          = (runStackOps mul (applyStackOp mul st op) rest).getLast? := rfl
        _ = (applyStackOp mul st op).getLast? := ih _ hstep_ne
        _ = st.getLast? := hstep_last

/-- Height bound: under the balanced-suffix condition the stack height
can never exceed `max 1 (start + pushes - pops)`. -/
lemma runStackOps_length_le {M : Type} (mul : M → M → M) :
    ∀ (ops : List (StackOp M)) (st : List M), st ≠ [] →
      balancedSuffixes ops →
      ((runStackOps mul st ops).length : ℤ) ≤
        max 1 ((st.length : ℤ) + (pushCount ops : ℤ) - (popCount ops : ℤ)) := by
  intro ops
  induction ops with
  | nil =>
      intro st h _
      have : 0 < st.length := List.length_pos.mpr h
      simp only [runStackOps, List.foldl_nil, pushCount, popCount,
        List.countP_nil]
      omega
  | cons op rest ih =>
      intro st h hbal
      have hbal' := balancedSuffixes_tail op rest hbal
      have h0 : (pushCount rest : ℤ) ≤ (popCount rest : ℤ) := by
        exact_mod_cast hbal' 0 (by simp)
      cases op with
      | push m =>
          cases st with
          | nil => exact absurd rfl h
          | cons t r =>
              have hstep : runStackOps mul (t :: r) (StackOp.push m :: rest) =
                  runStackOps mul (mul t m :: t :: r) rest := rfl
              have := ih (mul t m :: t :: r) (by simp) hbal'
              rw [hstep]
              simp only [pushCount_cons_push, popCount_cons_push] at this ⊢
              simp only [List.length_cons] at this ⊢
              push_cast at this ⊢
              omega
      | pop =>
          have hpos : 0 < st.length := List.length_pos.mpr h
          have hstep : runStackOps mul st (StackOp.pop :: rest) =
              runStackOps mul (stackPop st) rest := rfl
          rw [hstep]
          by_cases hle : st.length ≤ 1
          · have hpop : stackPop st = st := by unfold stackPop; rw [if_pos hle]
            rw [hpop]
            have := ih st h hbal'
            simp only [pushCount_cons_pop, popCount_cons_pop] at this ⊢
            push_cast at this ⊢
            omega
          · have hpop : stackPop st = st.tail := by unfold stackPop; rw [if_neg hle]
            have htail_len : st.tail.length = st.length - 1 := by
              cases st <;> simp
            have htail_ne : st.tail ≠ [] := by
              intro hcon
              have := congrArg List.length hcon
              rw [htail_len] at this
              simp at this
              omega
            rw [hpop]
            have := ih st.tail htail_ne hbal'
            rw [htail_len] at this
            simp only [pushCount_cons_pop, popCount_cons_pop] at this ⊢
            push_cast at this ⊢
            omega

/-- **C2.** The transform stack is never empty: for every sequence of
`push`/`pop` operations starting from `Draw::new`'s `[identity]`, the
stack stays non-empty; `pop` on a single-element stack is a no-op; and
once every pushed matrix has been popped again (pops dominate pushes
on each suffix — which covers balanced sequences and extra pops),
`transform()` is the identity at the bottom of the stack. -/
theorem transform_stack_never_empties (M : Type) (mul : M → M → M)
    (ident : M) :
    (∀ ops : List (StackOp M), runStackOps mul [ident] ops ≠ []) ∧
    (∀ st : List M, st.length = 1 → stackPop st = st) ∧
    (∀ ops : List (StackOp M), balancedSuffixes ops →
      transform (runStackOps mul [ident] ops) = some ident) := by
  refine ⟨fun ops => runStackOps_ne_nil mul ops [ident] (by simp),
    fun st hst => ?_, fun ops hbal => ?_⟩
  · unfold stackPop
    rw [if_pos (by omega)]
  · have hne := runStackOps_ne_nil mul ops [ident] (by simp)
    have hlast := runStackOps_getLast? mul ops [ident] (by simp)
    have hlen := runStackOps_length_le mul ops [ident] (by simp) hbal
    have h0 : (pushCount ops : ℤ) ≤ (popCount ops : ℤ) := by
      exact_mod_cast hbal 0 (by simp)
    have hpos : 0 < (runStackOps mul [ident] ops).length :=
      List.length_pos.mpr hne
    have hlen1 : (runStackOps mul [ident] ops).length = 1 := by
      simp only [List.length_singleton] at hlen
      omega
    obtain ⟨x, hx⟩ := List.length_eq_one.mp hlen1
    rw [hx] at hlast ⊢
    simp only [List.getLast?_singleton] at hlast
    simp only [transform, List.head?_cons]
    exact hlast

/-- Witness for C2: push one matrix, pop it, pop once more on the
singleton stack. -/
theorem transform_stack_never_empties_witness :
    balancedSuffixes [StackOp.push (5 : ℤ), StackOp.pop, StackOp.pop] ∧
    transform (runStackOps Int.mul [1]
      [StackOp.push (5 : ℤ), StackOp.pop, StackOp.pop]) = some 1 ∧
    stackPop [(3 : ℤ)] = [3] :=
  ⟨by decide,
   (transform_stack_never_empties ℤ Int.mul 1).2.2 _ (by decide),
   (transform_stack_never_empties ℤ Int.mul 1).2.1 [3] rfl⟩

/-! ## Claim C7: the first error aborts the whole tick -/

lemma drainLoop_first_error (a : Assets) :
    ∀ (pre : List (String × Bytes)) (id : String) (data : Bytes)
      (post : List (String × Bytes)) (e : String),
      (∀ p ∈ pre, (resolveLoader a p.1).exec p.1 p.2 = Except.ok () ∧
        a.storage.cleanAsset p.1 = Except.ok ()) →
      ((resolveLoader a id).exec id data = Except.error e ∨
        ((resolveLoader a id).exec id data = Except.ok () ∧
          a.storage.cleanAsset id = Except.error e)) →
      drainLoop a (pre ++ (id, data) :: post) =
        (pre.map Prod.fst ++ [id], Except.error e) := by
  intro pre
  induction pre with
  | nil =>
      intro id data post e _ hfail
      simp only [List.nil_append, drainLoop]
      rcases hfail with h1 | ⟨h1, h2⟩
      · rw [h1]
        simp
      · rw [h1, h2]
        simp
  | cons p rest ih =>
      intro id data post e hpre hfail
      obtain ⟨pid, pdata⟩ := p
      have hex : (resolveLoader a pid).exec pid pdata = Except.ok () :=
        (hpre (pid, pdata) (by simp)).1
      have hcl : a.storage.cleanAsset pid = Except.ok () :=
        (hpre (pid, pdata) (by simp)).2
      have hrest : ∀ q ∈ rest, (resolveLoader a q.1).exec q.1 q.2 = Except.ok () ∧
          a.storage.cleanAsset q.1 = Except.ok () :=
        fun q hq => hpre q (by simp [hq])
      have ihh := ih id data post e hrest hfail
      simp only [List.cons_append, drainLoop, hex, hcl, List.append_eq]
      rw [ihh]
      simp

/-- **C7.** During `tick`'s drain of completed raw loads (processed
back-to-front, as `Vec::pop` takes the last element), the first loader
execution — or per-id cleanup — that fails propagates its error out of
`tick` immediately: the remaining queued completions of that drain are
left unprocessed and the end-of-drain `clean_ready_assets` does not
run. -/
theorem tick_first_error_aborts (a : Assets) (q pre post : List (String × Bytes))
    (id : String) (data : Bytes) (e : String)
    (hq : a.storage.toUpdate = some q)
    (hsplit : q.reverse = pre ++ (id, data) :: post)
    (hpre : ∀ p ∈ pre, (resolveLoader a p.1).exec p.1 p.2 = Except.ok () ∧
      a.storage.cleanAsset p.1 = Except.ok ())
    (hfail : (resolveLoader a id).exec id data = Except.error e ∨
      ((resolveLoader a id).exec id data = Except.ok () ∧
        a.storage.cleanAsset id = Except.error e)) :
    a.tick = { execedIds := pre.map Prod.fst ++ [id], endCleanupRan := false,
               result := Except.error e } := by
  simp only [Assets.tick, hq]
  rw [hsplit, drainLoop_first_error a pre id data post e hpre hfail]

/-- A manager whose byte loader fails on empty payloads, with three
completed loads queued ("bad" carries an empty payload). -/
def wAssets7 : Assets :=
  { storage := { slots := [],
                 toUpdate := some [("a", [1]), ("bad", []), ("c", [2])],
                 cleanAsset := fun _ => Except.ok () },
    loaders := [],
    byteLoader := { typeId := some vecU8TypeId,
                    exec := fun _ data =>
                      if data.length = 0 then Except.error "boom"
                      else Except.ok () } }

/-- Witness for C7: the drain processes "c" (the queue's last element)
then fails on "bad", leaving "a" unprocessed and skipping the final
cleanup. -/
theorem tick_first_error_aborts_witness :
    wAssets7.tick = { execedIds := ["c", "bad"], endCleanupRan := false,
                      result := Except.error "boom" } := by
  have h := tick_first_error_aborts wAssets7
    [("a", [1]), ("bad", []), ("c", [2])] [("c", [2])] [("a", [1])]
    "bad" [] "boom" rfl rfl
    (by intro p hp
        simp only [List.mem_singleton] at hp
        subst hp
        exact ⟨rfl, rfl⟩)
    (Or.inl rfl)
  simpa using h

/-! ## Claim C8: missing loaders fall back to the byte loader -/

/-- **C8.** `load` never fails because of a missing loader: when no
loader is registered for the id's extension it falls back to the
built-in raw-byte loader (which declares the `Vec<u8>` output type),
registers a pending slot under that type, and returns `Ok` with a
done-signal; `load` returns the registration error exactly when the
resolved loader declares no output `TypeId`. -/
theorem load_missing_loader_falls_back (a : Assets) (id : String)
    (hb : a.byteLoader = byteLoaderDefault) :
    ((a.loaders.find? (fun p => p.1 == (pathExtension id).getD "")) = Option.none →
      a.load id = Except.ok
        ({ a with storage :=
            { a.storage with slots := a.storage.slots ++ [(id, vecU8TypeId)] } },
         { done := false })) ∧
    (a.load id = Except.error "Loader without output type id" ↔
      (resolveLoader a id).typeId = Option.none) := by
  constructor
  · intro hf
    simp only [Assets.load, resolveLoader, hf, hb, byteLoaderDefault]
    rfl
  · simp only [Assets.load]
    cases ht : (resolveLoader a id).typeId with
    | none => simp [ht]
    | some tid => simp [ht]

/-- A fresh manager with empty registry. -/
def wAssets8 : Assets :=
  Assets.new { slots := [], toUpdate := Option.none,
               cleanAsset := fun _ => Except.ok () }

/-- Witness for C8: loading "foo.png" with no "png" loader registered
succeeds and registers a `Vec<u8>`-typed pending slot. -/
theorem load_missing_loader_falls_back_witness :
    wAssets8.load "foo.png" = Except.ok
      ({ wAssets8 with storage :=
          { wAssets8.storage with
            slots := wAssets8.storage.slots ++ [("foo.png", vecU8TypeId)] } },
       { done := false }) :=
  (load_missing_loader_falls_back wAssets8 "foo.png" rfl).1 rfl

/-! ## Claim C10: extension resolution is case-sensitive -/

/-- ASCII lowercasing of one character. -/
def asciiLower (c : Char) : Char :=
  if 'A' ≤ c ∧ c ≤ 'Z' then Char.ofNat (c.toNat + 32) else c

/-- ASCII lowercasing of a string. -/
def lowerStr (s : String) : String :=
  String.mk (s.toList.map asciiLower)

/-- **C10.** Extension-to-loader resolution (shared verbatim by `load`
and `tick`) is case-sensitive and performs no normalization: an id
whose extension differs from the single registered loader key only in
letter case misses the registry and falls back to the raw-byte loader;
and an id with no extension at all resolves against the empty-string
key. -/
theorem extension_resolution_case_sensitive (a : Assets) (id e k : String)
    (l : LoaderCallback) (hext : pathExtension id = some e)
    (hreg : a.loaders = [(k, l)]) (_hcase : lowerStr e = lowerStr k)
    (hne : e ≠ k) :
    resolveLoader a id = a.byteLoader ∧
    (∀ (a2 : Assets) (id2 : String) (l0 : LoaderCallback),
      pathExtension id2 = Option.none → a2.loaders = [("", l0)] →
      resolveLoader a2 id2 = l0) := by
  constructor
  · simp only [resolveLoader, hext, hreg, Option.getD_some]
    have : (k == e) = false := by
      simp only [beq_eq_false_iff_ne, ne_eq]
      exact Ne.symm hne
    simp [List.find?, this]
  · intro a2 id2 l0 h2 hr2
    simp only [resolveLoader, h2, hr2, Option.getD_none]
    simp [List.find?]

/-- A manager with a loader registered under "png" only. -/
def wAssets10 : Assets :=
  { storage := { slots := [], toUpdate := Option.none,
                 cleanAsset := fun _ => Except.ok () },
    loaders := [("png", { typeId := some 2, exec := fun _ _ => Except.ok () })],
    byteLoader := byteLoaderDefault }

/-- A manager with a loader registered under the empty string. -/
def wAssets10b : Assets :=
  { storage := { slots := [], toUpdate := Option.none,
                 cleanAsset := fun _ => Except.ok () },
    loaders := [("", { typeId := some 3, exec := fun _ _ => Except.ok () })],
    byteLoader := byteLoaderDefault }

/-- Witness for C10: "FILE.PNG" misses the "png" loader and falls back
to the byte loader; "data" (no extension) resolves against the
empty-string key. -/
theorem extension_resolution_case_sensitive_witness :
    pathExtension "FILE.PNG" = some "PNG" ∧
    lowerStr "PNG" = lowerStr "png" ∧
    resolveLoader wAssets10 "FILE.PNG" = wAssets10.byteLoader ∧
    resolveLoader wAssets10b "data" =
      { typeId := some 3, exec := fun _ _ => Except.ok () } :=
  ⟨by decide, by decide,
   (extension_resolution_case_sensitive wAssets10 "FILE.PNG" "PNG" "png"
     { typeId := some 2, exec := fun _ _ => Except.ok () }
     (by decide) rfl (by decide) (by decide)).1,
   (extension_resolution_case_sensitive wAssets10 "FILE.PNG" "PNG" "png"
     { typeId := some 2, exec := fun _ _ => Except.ok () }
     (by decide) rfl (by decide) (by decide)).2
     wAssets10b "data" _ (by decide) rfl⟩

end Notan
